import Mathlib

/-!
Shallow embedding of the Kicksaw `test-protected-deployment5` repository
(Python sources under `src/`), together with theorems settling the frozen
claims about its specification.

Each section embeds one source file's relevant functions as executable Lean
definitions, translated directly from the Python source.
-/

set_option maxHeartbeats 1000000

namespace Handler

/-! ### `src/handlers/do_something.py`

`async_handler` is modelled as a pure function from the outcome of its `try`
block (either normal completion, or an escaping exception group carrying a
list of exceptions) to the final state of the `execution` record, the trace
of observable actions the handler performs, and the handler's outcome
(return vs. re-raise).
-/

/-- An exception as seen by the handler.  `lines` is the list of strings the
standard-library call `traceback.format_exception_only(exc)` returns for it;
the handler only ever consumes an exception through that call, so the
formatted lines are the exception's observable content. -/
structure Exn where
  lines : List String
deriving DecidableEq, Repr

/-- Model of `"\n".join(traceback.format_exception_only(e))`. -/
def formatExceptionOnlyJoined (e : Exn) : String :=
  String.intercalate "\n" e.lines

/-- Insert a comma after every third character of a reversed digit list,
helper for Python's `{n:,d}` format specifier. -/
def groupRev : List Char → List Char
  | a :: b :: c :: d :: rest => a :: b :: c :: ',' :: groupRev (d :: rest)
  | l => l

/-- Python's `f"{n:,d}"`: decimal digits with thousands separators. -/
def commaFmt (n : Nat) : String :=
  String.mk (groupRev (toString n).toList.reverse).reverse

/-- The fields of the `KicksawIntegrationAppExecution` record that
`async_handler` assigns.  `none` means "never assigned". -/
structure ExecutionRecord where
  errorMessage : Option String := none
  responsePayload : Option (List (String × Bool)) := none
  success : Option Bool := none
deriving DecidableEq, Repr

/-- Observable actions performed by `async_handler`, in program order. -/
inductive HandlerAction where
  /-- `logger.info("Doing something with event: %s", ...)` -/
  | logDoingSomething
  /-- `logger.warning("Encountered %d soft errors", ...)` -/
  | logSoftErrorCount
  /-- `execution.logger.warning(error)` -/
  | execLogWarning (msg : String)
  /-- `execution.logger.error(...)` -/
  | execLogError (msg : String)
  /-- `task = asyncio.create_task(execution.create_all()); await asyncio.shield(task)` -/
  | createAllShieldedAwait
  /-- the `subsegment.put_annotation(...)` calls after the awaited write -/
  | putAnnotations
deriving DecidableEq, Repr

/-- Outcome of the handler: normal return, or re-raise of the caught group. -/
inductive HandlerOutcome where
  | returned
  | raised (exns : List Exn)
deriving DecidableEq, Repr

/-- Lines 40-52 of `do_something.py`: the "Finish execution" block at the end
of the `try` body, branching on the soft-error list. -/
def finishExecution (softErrors : List String) (ex : ExecutionRecord) :
    ExecutionRecord × List HandlerAction :=
  if softErrors.length > 0 then
    ({ ex with
        errorMessage := some ("Encountered " ++ commaFmt softErrors.length
          ++ " errors, see execution logs for details")
        success := some false },
     HandlerAction.logSoftErrorCount :: softErrors.map HandlerAction.execLogWarning)
  else
    ({ ex with
        responsePayload := some [("success", true)]
        success := some true },
     [])

/-- Lines 54-69 of `do_something.py`: the `except* Exception as eg` body,
matching on `len(eg.exceptions)`. -/
def handleExceptionGroup (exns : List Exn) (ex : ExecutionRecord) :
    ExecutionRecord × List HandlerAction :=
  match exns with
  | [e] =>
      ({ ex with errorMessage := some (formatExceptionOnlyJoined e) }, [])
  | _ =>
      ({ ex with
          errorMessage := some ("Execution failed with " ++ commaFmt exns.length
            ++ " errors, see ERROR logs for details") },
       exns.map fun e => HandlerAction.execLogError (formatExceptionOnlyJoined e))

/-- `async_handler` of `do_something.py`.  `tryResult = none` models the
`try` block completing normally (after the `logger.info` call); `some exns`
models an exception group with exceptions `exns` escaping the `try` block.
`execution_soft_errors` is initialized to the empty list exactly as in the
source (nothing in the source ever appends to it).  The `finally` block runs
in every case: it awaits the shielded `execution.create_all()` task and then
puts the subsegment annotations. -/
def async_handler (tryResult : Option (List Exn)) :
    ExecutionRecord × List HandlerAction × HandlerOutcome :=
  let ex0 : ExecutionRecord := {}
  let executionSoftErrors : List String := []
  let body :
      ExecutionRecord × List HandlerAction × HandlerOutcome :=
    match tryResult with
    | none =>
        let (ex, acts) := finishExecution executionSoftErrors ex0
        (ex, HandlerAction.logDoingSomething :: acts, HandlerOutcome.returned)
    | some exns =>
        let (ex, acts) := handleExceptionGroup exns ex0
        (ex, acts, HandlerOutcome.raised exns)
  (body.1,
   body.2.1 ++ [HandlerAction.createAllShieldedAwait, HandlerAction.putAnnotations],
   body.2.2)

end Handler

namespace ProjectSettings

/-! ### `src/integration/config/project_settings.py`

The field validators of `Settings` are pure string functions and are embedded
directly.  Pydantic runs field validators in field declaration order, with
`info.data` holding the already-validated earlier fields, so settings
resolution is modelled as sequential application of the validators.
-/

/-- Validator `construct_aws_resource_suffix`: the declared value if it is not
the `"<changeme>"` placeholder, otherwise the already-validated
`ENVIRONMENT`. -/
def construct_aws_resource_suffix (value environment : String) : String :=
  if value ≠ "<changeme>" then value
  else environment

/-- Whether `p` is a prefix of `cs` (character-wise). -/
def isPrefixL : List Char → List Char → Bool
  | [], _ => true
  | _ :: _, [] => false
  | p :: ps, c :: cs => p = c && isPrefixL ps cs

/-- Fuelled worker for `pyReplace`; the fuel bounds the number of characters
consumed, so the recursion is structural. -/
def replaceFuel (pat repl : List Char) : Nat → List Char → List Char
  | 0, cs => cs
  | _ + 1, [] => []
  | fuel + 1, c :: cs =>
      if pat ≠ [] && isPrefixL pat (c :: cs) then
        repl ++ replaceFuel pat repl fuel (List.drop pat.length (c :: cs))
      else c :: replaceFuel pat repl fuel cs

/-- Python's `s.replace(pat, repl)` for a non-empty pattern: replace all
non-overlapping occurrences, left to right. -/
def pyReplace (s pat repl : String) : String :=
  String.mk (replaceFuel pat.toList repl.toList s.toList.length s.toList)

/-- Python's `s.lower()` (ASCII case folding suffices here). -/
def pyLower (s : String) : String :=
  String.mk (s.toList.map Char.toLower)

/-- The transformation the validator applies to the field name:
`field_name.replace("S3_BUCKET_", "").lower().replace("_", "-")`. -/
def s3FieldSlug (fieldName : String) : String :=
  pyReplace (pyLower (pyReplace fieldName "S3_BUCKET_" "")) "_" "-"

/-- Validator `validate_s3_buckets` for field `S3_BUCKET_STORAGE`: the
declared value if it is not `"<changeme>"`, otherwise
`"-".join([PROJECT_SLUG, AWS_RESOURCE_SUFFIX, <field slug>])`. -/
def validate_s3_buckets (value projectSlug awsResourceSuffix fieldName : String) :
    String :=
  if value ≠ "<changeme>" then value
  else String.intercalate "-" [projectSlug, awsResourceSuffix, s3FieldSlug fieldName]

/-- The declared (pre-validation) values of the fields involved in S3 bucket
name resolution, with the source defaults. -/
structure SettingsInput where
  PROJECT_SLUG : String := "salesforce-integration"
  ENVIRONMENT : String
  AWS_RESOURCE_SUFFIX : String := "<changeme>"
  S3_BUCKET_STORAGE : String := "<changeme>"
deriving DecidableEq, Repr

/-- The resolved values after validation. -/
structure ResolvedSettings where
  PROJECT_SLUG : String
  ENVIRONMENT : String
  AWS_RESOURCE_SUFFIX : String
  S3_BUCKET_STORAGE : String
deriving DecidableEq, Repr

/-- Settings resolution for the fields of `SettingsInput`: validators run in
field declaration order, each seeing the validated values of earlier
fields. -/
def resolveSettings (i : SettingsInput) : ResolvedSettings :=
  let suffix := construct_aws_resource_suffix i.AWS_RESOURCE_SUFFIX i.ENVIRONMENT
  { PROJECT_SLUG := i.PROJECT_SLUG
    ENVIRONMENT := i.ENVIRONMENT
    AWS_RESOURCE_SUFFIX := suffix
    S3_BUCKET_STORAGE :=
      validate_s3_buckets i.S3_BUCKET_STORAGE i.PROJECT_SLUG suffix
        "S3_BUCKET_STORAGE" }

/-- Python's `value.strip(" ")`: remove leading and trailing space characters
(only `' '`, not general whitespace). -/
def stripSpaces (s : String) : String :=
  String.mk (((s.toList.dropWhile (· = ' ')).reverse.dropWhile (· = ' ')).reverse)

/-- The test `value.strip(" ").lower() in {"", "null", "none"}` used twice in
the `SENTRY_DSN` property. -/
def isNullish (s : String) : Bool :=
  let t := pyLower (stripSpaces s)
  t = "" || t = "null" || t = "none"

/-- Result of the `SENTRY_DSN` property: `none` models Python `None`, and
`url v` models `HttpUrl(v)` (the value handed to the HTTP-URL parser). -/
inductive DsnResult where
  | none
  | url (value : String)
deriving DecidableEq, Repr

/-- The `SENTRY_DSN` property of `Settings`.  Inputs model the externals it
reads: `envValue` is `get_env_value("SENTRY_DSN")` (environment variables and
`.env` files), `environment` is `self.ENVIRONMENT`, `projectSlug` is
`self.PROJECT_SLUG`, and `secretDsn` is a map from secret name to the `"dsn"`
key of that secret (a `str | None` in the source).  The second component of
the result records the name of the secret fetched, `none` when no secret
lookup was performed. -/
def SENTRY_DSN (envValue : Option String) (environment projectSlug : String)
    (secretDsn : String → Option String) : DsnResult × Option String :=
  match envValue with
  | some v =>
      if isNullish v then (DsnResult.none, none)
      else (DsnResult.url v, none)
  | none =>
      if environment = "testing" then (DsnResult.none, none)
      else
        let secretName :=
          String.intercalate "-" [projectSlug, "shared-resources", "sentry-dsn"]
        match secretDsn secretName with
        | none => (DsnResult.none, some secretName)
        | some dsn =>
            if isNullish dsn then (DsnResult.none, some secretName)
            else (DsnResult.url dsn, some secretName)

end ProjectSettings

namespace Sqs

/-! ### `src/infrastructure/constructs/sqs.py`

`QueueWithDLQ.__init__` is embedded as a pure constructor computing the
properties of the queues it declares.  The leading `assert` is modelled by
returning `none` when it fails.
-/

/-- The properties `QueueWithDLQ.__init__` passes to `aws_sqs.Queue`.
`deadLetter` holds the `aws_sqs.DeadLetterQueue(max_receive_count, queue)`
attachment as the pair (max receive count, name of the attached queue). -/
structure QueueProps where
  queueName : String
  retentionPeriodDays : Nat
  visibilityTimeoutSeconds : Nat
  fifo : Bool
  contentBasedDeduplication : Bool
  deadLetter : Option (Nat × String)
deriving DecidableEq, Repr

/-- The construct's two attributes. -/
structure QueueWithDLQ where
  dead_letter_queue : Option QueueProps
  queue : QueueProps
deriving DecidableEq, Repr

/-- Python's `s.endswith(suffix)`. -/
def pyEndsWith (s suffix : String) : Bool :=
  suffix.toList.isSuffixOf s.toList

/-- `QueueWithDLQ.__init__` with the source's parameters and defaults.
Returns `none` exactly when the assertion
`assert not name.endswith(".fifo")` fails. -/
def mkQueueWithDLQ (name : String) (create_dlq : Bool)
    (max_receive_count : Nat := 3) (is_fifo : Bool := false)
    (content_based_deduplication : Bool := false)
    (visibility_timeout : Nat := 900) : Option QueueWithDLQ :=
  if pyEndsWith name ".fifo" then none
  else
    let cbd := is_fifo && content_based_deduplication
    let dlq : Option QueueProps :=
      if create_dlq then
        some
          { queueName := if is_fifo then name ++ "-dlq.fifo" else name ++ "-dlq"
            retentionPeriodDays := 14
            visibilityTimeoutSeconds := visibility_timeout
            fifo := is_fifo
            contentBasedDeduplication := cbd
            deadLetter := none }
      else none
    some
      { dead_letter_queue := dlq
        queue :=
          { queueName := if is_fifo then name ++ ".fifo" else name
            retentionPeriodDays := 14
            visibilityTimeoutSeconds := visibility_timeout
            fifo := is_fifo
            contentBasedDeduplication := cbd
            deadLetter :=
              match dlq with
              | some q => some (max_receive_count, q.queueName)
              | none => none } }

end Sqs

namespace OidcScript

/-! ### `src/scripts/create_github_oidc_role.py`

`wait_for_policy` is a polling loop over a `get_policy` call; the call's
behavior at each attempt index is a parameter.  `main` is embedded up to the
policy-attachment step as a function of the behaviors of the AWS calls it
makes.
-/

/-- Behavior of one `iam_client.get_policy` call: success, a `ClientError`
with code `"NoSuchEntity"`, or a `ClientError` with another code. -/
inductive PolicyAttempt where
  | success
  | noSuchEntity
  | otherError (code : String)
deriving DecidableEq, Repr

/-- Result of `wait_for_policy`: `return True`, `return False`, or the
re-raised `ClientError` (by its error code). -/
inductive WaitResult where
  | returnsTrue
  | returnsFalse
  | raises (code : String)
deriving DecidableEq, Repr

/-- The body of `wait_for_policy`'s `for attempt in range(max_attempts)`
loop, starting at attempt index `i` with `n` attempts remaining.  The second
component records the `time.sleep(delay)` calls made, in order. -/
def waitFrom (get : Nat → PolicyAttempt) (delay : Nat) (i : Nat) :
    Nat → WaitResult × List Nat
  | 0 => (WaitResult.returnsFalse, [])
  | n + 1 =>
      match get i with
      | PolicyAttempt.success => (WaitResult.returnsTrue, [])
      | PolicyAttempt.noSuchEntity =>
          ((waitFrom get delay (i + 1) n).1,
           delay :: (waitFrom get delay (i + 1) n).2)
      | PolicyAttempt.otherError code => (WaitResult.raises code, [])

/-- `wait_for_policy(iam_client, policy_arn, max_attempts, delay)`, with the
source defaults.  `get i` is the behavior of the `get_policy` call on attempt
`i` (counting from 0). -/
def wait_for_policy (get : Nat → PolicyAttempt) (max_attempts : Nat := 10)
    (delay : Nat := 2) : WaitResult × List Nat :=
  waitFrom get delay 0 max_attempts

/-- First attempt index in `[i, i + n)` at which `get` is not
`noSuchEntity`, paired with `none` for a success and `some code` for another
client error.  Returns `none` when every attempt is `noSuchEntity`. -/
def firstDecisiveFrom (get : Nat → PolicyAttempt) (i : Nat) :
    Nat → Option (Nat × Option String)
  | 0 => none
  | n + 1 =>
      match get i with
      | PolicyAttempt.success => some (i, none)
      | PolicyAttempt.noSuchEntity => firstDecisiveFrom get (i + 1) n
      | PolicyAttempt.otherError code => some (i, some code)

/-- Result of a boto3 call: the parsed value, or a `ClientError` with the
given error code. -/
inductive ApiResult (α : Type) where
  | ok (value : α)
  | clientError (code : String)
deriving DecidableEq, Repr

def ROLE_NAME : String := "salesforce-integration-deployment-role"

def POLICY_NAME : String := "salesforce-integration-cdk-deployment-policy"

/-- Behaviors of the AWS API calls `main` performs before the
policy-attachment step.  `createPolicy` carries the created policy's ARN on
success; `getPolicyArn` maps the ARN passed to `get_policy` to the
`response["Policy"]["Arn"]` it returns. -/
structure OidcEnv where
  getAccountId : ApiResult String
  createRole : ApiResult Unit
  waitRoleOk : Bool
  createPolicy : ApiResult String
  waitPolicyOk : Bool
  getPolicyArn : String → ApiResult String

/-- How far `main` gets before the policy-attachment step: each `aborted*`
stage is a `return` (after printing an error), and `reachedAttach arn` means
control reaches `attach_role_policy` with `policy_arn = arn`. -/
inductive MainStage where
  | abortedAccountId
  | abortedRoleCreate
  | abortedRoleWait
  | abortedPolicyCreate
  | abortedPolicyWait
  | abortedGetExistingPolicy
  | reachedAttach (policy_arn : String)
deriving DecidableEq, Repr

/-- The role-creation `try`/`except` of `main`: `none` means control falls
through to the policy-creation step, `some s` means `main` returns at `s`. -/
def roleStep (b : OidcEnv) : Option MainStage :=
  match b.createRole with
  | ApiResult.ok _ =>
      if b.waitRoleOk then none else some MainStage.abortedRoleWait
  | ApiResult.clientError code =>
      if code = "EntityAlreadyExists" then none
      else some MainStage.abortedRoleCreate

/-- The policy-creation `try`/`except` of `main`, returning the stage the
script reaches (given that the role step fell through). -/
def policyStep (b : OidcEnv) (account_id : String) : MainStage :=
  match b.createPolicy with
  | ApiResult.ok policy_arn =>
      if b.waitPolicyOk then MainStage.reachedAttach policy_arn
      else MainStage.abortedPolicyWait
  | ApiResult.clientError code =>
      if code = "EntityAlreadyExists" then
        match
          b.getPolicyArn
            ("arn:aws:iam::" ++ account_id ++ ":policy/" ++ POLICY_NAME) with
        | ApiResult.ok policy_arn => MainStage.reachedAttach policy_arn
        | ApiResult.clientError _ => MainStage.abortedGetExistingPolicy
      else MainStage.abortedPolicyCreate

/-- `main` of `create_github_oidc_role.py`, up to the policy-attachment
step. -/
def mainFlow (b : OidcEnv) : MainStage :=
  match b.getAccountId with
  | ApiResult.clientError _ => MainStage.abortedAccountId
  | ApiResult.ok account_id =>
      match roleStep b with
      | some s => s
      | none => policyStep b account_id

end OidcScript

namespace GithubBranches

/-! ### `src/scripts/create_repos_and_branches.py`, `create_branches`

The branch-creation loop of the `create-branches` subcommand.  The repository
is modelled by its git refs: an association list from ref path (e.g.
`"heads/main"`) to object SHA.  `get_git_ref(path)` succeeds iff the path is
bound; `create_git_ref("refs/" + path, sha)` binds the path (the GitHub API
creates a ref named `refs/<path>` that is subsequently fetched as
`<path>`).
-/

/-- The repository's git refs: full ref name (e.g. `"refs/heads/main"`) ↦
object SHA. -/
structure RepoState where
  refs : List (String × String)
deriving DecidableEq, Repr

/-- `repo.get_git_ref(ref)` for a partial ref like `"heads/main"`: the API
resolves it against the full ref `"refs/" + ref`; `some sha` on success,
`none` when the call raises `GithubException`. -/
def get_git_ref (st : RepoState) (ref : String) : Option String :=
  st.refs.lookup ("refs/" ++ ref)

/-- `repo.create_git_ref(ref, sha)` for a full ref like
`"refs/heads/main"`: binds the full ref name. -/
def create_git_ref (st : RepoState) (ref : String) (sha : String) : RepoState :=
  { refs := st.refs ++ [(ref, sha)] }

/-- The GitHub API calls the branch loop makes, in order. -/
inductive ApiCall where
  | getRef (ref : String)
  | createRef (ref : String) (sha : String)
deriving DecidableEq, Repr

/-- One iteration of the branch loop (lines 602-628): fetch
`heads/<branch>`; if it exists, skip; otherwise create
`refs/heads/<branch>` at `source_sha`. -/
def processBranch (st : RepoState) (sourceSha : String) (branch : String) :
    RepoState × List ApiCall :=
  match get_git_ref st ("heads/" ++ branch) with
  | some _ => (st, [ApiCall.getRef ("heads/" ++ branch)])
  | none =>
      (create_git_ref st ("refs/heads/" ++ branch) sourceSha,
       [ApiCall.getRef ("heads/" ++ branch),
        ApiCall.createRef ("refs/heads/" ++ branch) sourceSha])

/-- The branch loop of the `create-branches` subcommand over the parsed
branch list, threading the repository state and collecting the API calls. -/
def create_branches (st : RepoState) (sourceSha : String) :
    List String → RepoState × List ApiCall
  | [] => (st, [])
  | b :: rest =>
      let step := processBranch st sourceSha b
      let recur := create_branches step.1 sourceSha rest
      (recur.1, step.2 ++ recur.2)

end GithubBranches

namespace TimeRangeModel

/-! ### `src/integration/models/time_range.py`

`TimeRange` with its `mode="after"` model validator.  Instants are modelled
as integers (the validator only compares them).  Construction and — because
`validate_assignment` is enabled in the base `model_config` — every later
field assignment run the validator; a `ValueError` is an `Except.error`.
-/

structure TimeRange where
  start : Int
  end_ : Int
deriving DecidableEq, Repr

/-- The `end_after_start` model validator. -/
def end_after_start (t : TimeRange) : Except String TimeRange :=
  if t.start > t.end_ then Except.error "End must be after start"
  else Except.ok t

/-- Constructing `TimeRange(start=..., end=...)`: field validation (trivial
here) followed by the `mode="after"` model validator. -/
def mkTimeRange (start end_ : Int) : Except String TimeRange :=
  end_after_start { start := start, end_ := end_ }

/-- Assigning `t.start = v` with `validate_assignment = True`: the model
validator runs again on the updated instance. -/
def setStart (t : TimeRange) (v : Int) : Except String TimeRange :=
  end_after_start { t with start := v }

/-- Assigning `t.end = v` with `validate_assignment = True`. -/
def setEnd (t : TimeRange) (v : Int) : Except String TimeRange :=
  end_after_start { t with end_ := v }

end TimeRangeModel

/-! ## Theorems -/

namespace Handler

/-- The `except*` body never performs the telemetry write. -/
theorem createAll_not_mem_handleExceptionGroup (exns : List Exn)
    (ex : ExecutionRecord) :
    HandlerAction.createAllShieldedAwait ∉ (handleExceptionGroup exns ex).2 := by
  match exns with
  | [e] => simp [handleExceptionGroup]
  | [] => simp [handleExceptionGroup]
  | e :: f :: rest => simp [handleExceptionGroup]

/-- C1: on every invocation of `async_handler` — whether the `try` block
completes normally or raises — the action trace ends with the shielded,
awaited `execution.create_all()` task followed by the subsegment
annotations, the telemetry write occurs nowhere earlier in the trace, and it
occurs exactly once overall. -/
theorem c1_createAll_exactly_once_in_finally (tryResult : Option (List Exn)) :
    (∃ pre, (async_handler tryResult).2.1 =
        pre ++ [HandlerAction.createAllShieldedAwait, HandlerAction.putAnnotations] ∧
        HandlerAction.createAllShieldedAwait ∉ pre) ∧
    ((async_handler tryResult).2.1).count HandlerAction.createAllShieldedAwait = 1 := by
  match tryResult with
  | none =>
      refine ⟨⟨[HandlerAction.logDoingSomething], ?_, ?_⟩, ?_⟩ <;>
        simp [async_handler, finishExecution]
  | some exns =>
      refine ⟨⟨(handleExceptionGroup exns {}).2, ?_, ?_⟩, ?_⟩
      · simp [async_handler]
      · exact createAll_not_mem_handleExceptionGroup exns {}
      · have h := createAll_not_mem_handleExceptionGroup exns {}
        simp [async_handler, List.count_append, List.count_eq_zero.mpr h]

/-- Tests whether an action is an `execution.logger.error` call. -/
def isExecLogError : HandlerAction → Bool
  | HandlerAction.execLogError _ => true
  | _ => false

/-- C2: when an exception group escapes the `try` block of `async_handler`,
the handler re-raises that very group; if the group holds exactly one
exception, `execution.error_message` is set to that exception's formatted
exception-only traceback, and no per-exception error log is emitted; if it
holds more than one, every exception is logged via `execution.logger.error`
and `execution.error_message` is the single aggregate message. -/
theorem c2_exception_group_handling (exns : List Exn) :
    (async_handler (some exns)).2.2 = HandlerOutcome.raised exns ∧
    (async_handler (some exns)).1.errorMessage =
      some (match exns with
        | [e] => formatExceptionOnlyJoined e
        | _ => "Execution failed with " ++ commaFmt exns.length
            ++ " errors, see ERROR logs for details") ∧
    ((async_handler (some exns)).2.1).filter isExecLogError =
      (match exns with
        | [_] => []
        | _ => exns.map fun e =>
            HandlerAction.execLogError (formatExceptionOnlyJoined e)) := by
  refine ⟨by simp [async_handler], ?_, ?_⟩
  · match exns with
    | [] => simp [async_handler, handleExceptionGroup]
    | [e] => simp [async_handler, handleExceptionGroup]
    | e :: f :: rest => simp [async_handler, handleExceptionGroup]
  · match exns with
    | [] => simp [async_handler, handleExceptionGroup, isExecLogError]
    | [e] => simp [async_handler, handleExceptionGroup, isExecLogError]
    | e :: f :: rest =>
        simp only [async_handler, handleExceptionGroup, List.filter_append]
        rw [List.filter_eq_self.mpr, List.filter_eq_nil_iff.mpr] <;>
          simp [isExecLogError]

/-- C10: `execution_soft_errors` stays empty, so on normal completion of the
`try` block the soft-error branch never runs: the handler emits no soft-error
warnings, sets `execution.response_payload` to `{"success": True}` and
`execution.success` to `True`, and leaves `error_message` unset. -/
theorem c10_soft_error_branch_unreachable :
    (async_handler none).1.success = some true ∧
    (async_handler none).1.responsePayload = some [("success", true)] ∧
    (async_handler none).1.errorMessage = none ∧
    ((async_handler none).2.1).all (fun a =>
      match a with
      | HandlerAction.logSoftErrorCount => false
      | HandlerAction.execLogWarning _ => false
      | _ => true) = true ∧
    (async_handler none).2.2 = HandlerOutcome.returned := by
  refine ⟨?_, ?_, ?_, ?_, ?_⟩ <;> simp [async_handler, finishExecution]

end Handler

namespace ProjectSettingsThms

open ProjectSettings

/-- Unfolding of `"-".join([a, b, "storage"])`. -/
theorem intercalate_storage (a b : String) :
    String.intercalate "-" [a, b, "storage"] = a ++ "-" ++ b ++ "-storage" := by
  simp [String.intercalate, String.intercalate.go, String.append_assoc]

/-- Unfolding of `"-".join([slug, "shared-resources", "sentry-dsn"])`. -/
theorem intercalate_sentry (slug : String) :
    String.intercalate "-" [slug, "shared-resources", "sentry-dsn"]
      = slug ++ "-shared-resources-sentry-dsn" := by
  simp [String.intercalate, String.intercalate.go, String.append_assoc]

/-- The field-name transformation evaluates to `"storage"`. -/
theorem s3FieldSlug_storage : s3FieldSlug "S3_BUCKET_STORAGE" = "storage" := by
  decide

/-- C3: with `S3_BUCKET_STORAGE` left at its `"<changeme>"` default, the
resolved bucket name is `PROJECT_SLUG + "-" + AWS_RESOURCE_SUFFIX +
"-storage"`, where `AWS_RESOURCE_SUFFIX` resolves to `ENVIRONMENT` when left
at its own `"<changeme>"` default; explicitly supplied non-placeholder
values of either field are returned unchanged. -/
theorem c3_s3_bucket_resolution
    (env slug suffixIn explicitSuffix explicitS3 : String) :
    ((resolveSettings { PROJECT_SLUG := slug, ENVIRONMENT := env }).AWS_RESOURCE_SUFFIX = env ∧
      (resolveSettings { PROJECT_SLUG := slug, ENVIRONMENT := env }).S3_BUCKET_STORAGE = slug ++ "-" ++ env ++ "-storage") ∧
    ((resolveSettings { PROJECT_SLUG := slug, ENVIRONMENT := env, AWS_RESOURCE_SUFFIX := suffixIn }).S3_BUCKET_STORAGE
        = slug ++ "-"
          ++ (resolveSettings { PROJECT_SLUG := slug, ENVIRONMENT := env, AWS_RESOURCE_SUFFIX := suffixIn }).AWS_RESOURCE_SUFFIX
          ++ "-storage") ∧
    (explicitSuffix ≠ "<changeme>" →
      (resolveSettings { PROJECT_SLUG := slug, ENVIRONMENT := env, AWS_RESOURCE_SUFFIX := explicitSuffix }).AWS_RESOURCE_SUFFIX = explicitSuffix) ∧
    (explicitS3 ≠ "<changeme>" →
      (resolveSettings { PROJECT_SLUG := slug, ENVIRONMENT := env, AWS_RESOURCE_SUFFIX := suffixIn, S3_BUCKET_STORAGE := explicitS3 }).S3_BUCKET_STORAGE = explicitS3) := by
  refine ⟨⟨?_, ?_⟩, ?_, ?_, ?_⟩
  · simp [resolveSettings, construct_aws_resource_suffix]
  · simp [resolveSettings, construct_aws_resource_suffix, validate_s3_buckets,
      s3FieldSlug_storage, intercalate_storage]
  · simp only [resolveSettings, validate_s3_buckets, s3FieldSlug_storage]
    rw [if_neg (by simp), intercalate_storage]
  · intro h
    simp [resolveSettings, construct_aws_resource_suffix, h]
  · intro h
    simp [resolveSettings, validate_s3_buckets, h]

/-- Witness for C3 at concrete inputs. -/
theorem c3_s3_bucket_resolution_witness :
    (resolveSettings { PROJECT_SLUG := "salesforce-integration", ENVIRONMENT := "development" }).S3_BUCKET_STORAGE
      = "salesforce-integration" ++ "-" ++ "development" ++ "-storage" ∧
    (resolveSettings { PROJECT_SLUG := "salesforce-integration", ENVIRONMENT := "development", AWS_RESOURCE_SUFFIX := "dev2" }).AWS_RESOURCE_SUFFIX = "dev2" ∧
    (resolveSettings { PROJECT_SLUG := "salesforce-integration", ENVIRONMENT := "development", AWS_RESOURCE_SUFFIX := "dev2", S3_BUCKET_STORAGE := "my-bucket" }).S3_BUCKET_STORAGE = "my-bucket" :=
  ⟨(c3_s3_bucket_resolution "development" "salesforce-integration" "dev2"
      "dev2" "my-bucket").1.2,
   (c3_s3_bucket_resolution "development" "salesforce-integration" "dev2"
      "dev2" "my-bucket").2.2.1 (by decide),
   (c3_s3_bucket_resolution "development" "salesforce-integration" "dev2"
      "dev2" "my-bucket").2.2.2 (by decide)⟩

/-- C4: resolution order of the `SENTRY_DSN` property: an existing
environment value wins (with blank/`"null"`/`"none"` after stripping spaces
and lowercasing yielding `None`); otherwise in the `"testing"` environment
the result is `None` with no secret lookup; otherwise the `"dsn"` key of the
secret `PROJECT_SLUG + "-shared-resources-sentry-dsn"` is fetched, `None` or
a blank/nullish value yielding `None` and anything else parsed as an HTTP
URL. -/
theorem c4_sentry_dsn_resolution (envValue : Option String)
    (environment projectSlug : String) (secretDsn : String → Option String) :
    (∀ v, envValue = some v →
      SENTRY_DSN envValue environment projectSlug secretDsn
        = (if isNullish v then (DsnResult.none, none)
           else (DsnResult.url v, none))) ∧
    (envValue = none → environment = "testing" →
      SENTRY_DSN envValue environment projectSlug secretDsn
        = (DsnResult.none, none)) ∧
    (envValue = none → environment ≠ "testing" →
      SENTRY_DSN envValue environment projectSlug secretDsn
        = (match secretDsn (projectSlug ++ "-shared-resources-sentry-dsn") with
           | none => DsnResult.none
           | some dsn =>
               if isNullish dsn then DsnResult.none else DsnResult.url dsn,
           some (projectSlug ++ "-shared-resources-sentry-dsn"))) := by
  refine ⟨?_, ?_, ?_⟩
  · intro v hv
    subst hv
    by_cases h : isNullish v <;> simp [SENTRY_DSN, h]
  · intro h1 h2
    subst h1
    simp [SENTRY_DSN, h2]
  · intro h1 h2
    subst h1
    simp only [SENTRY_DSN, if_neg h2, intercalate_sentry]
    cases hd : secretDsn (projectSlug ++ "-shared-resources-sentry-dsn") with
    | none => simp [hd]
    | some dsn => by_cases h : isNullish dsn <;> simp [hd, h]

/-- Witness for C4 at concrete inputs: a nullish environment value, the
testing environment, and a production-environment secret fetch. -/
theorem c4_sentry_dsn_resolution_witness :
    SENTRY_DSN (some " NULL ") "production" "salesforce-integration"
        (fun _ => none) = (DsnResult.none, none) ∧
    SENTRY_DSN none "testing" "salesforce-integration" (fun _ => none)
      = (DsnResult.none, none) ∧
    SENTRY_DSN none "production" "salesforce-integration"
        (fun _ => some "https://key@sentry.example/1")
      = (DsnResult.url "https://key@sentry.example/1",
         some "salesforce-integration-shared-resources-sentry-dsn") := by
  refine ⟨?_, ?_, ?_⟩
  · have h := (c4_sentry_dsn_resolution (some " NULL ") "production"
      "salesforce-integration" (fun _ => none)).1 " NULL " rfl
    exact h.trans (by decide)
  · exact (c4_sentry_dsn_resolution none "testing" "salesforce-integration"
      (fun _ => none)).2.1 rfl rfl
  · have h := (c4_sentry_dsn_resolution none "production"
      "salesforce-integration"
      (fun _ => some "https://key@sentry.example/1")).2.2 rfl (by decide)
    exact h.trans (by decide)

end ProjectSettingsThms

namespace SqsThms

open Sqs

/-- C5: for a name not ending in `".fifo"`, `QueueWithDLQ` with
`create_dlq = True` creates a DLQ named `name + "-dlq"` (respectively
`name + "-dlq.fifo"` when FIFO) attached to the primary queue with the given
`max_receive_count`, both queues sharing the visibility timeout and a 14-day
retention period; with `create_dlq = False` there is no DLQ at all; a name
ending in `".fifo"` is rejected by the assertion. -/
theorem c5_queue_with_dlq (name : String) (create_dlq : Bool) (mrc : Nat)
    (is_fifo cbd : Bool) (vt : Nat) :
    (pyEndsWith name ".fifo" = true →
      mkQueueWithDLQ name create_dlq mrc is_fifo cbd vt = none) ∧
    (pyEndsWith name ".fifo" = false →
      ∃ q, mkQueueWithDLQ name create_dlq mrc is_fifo cbd vt = some q ∧
        q.queue.queueName = (if is_fifo then name ++ ".fifo" else name) ∧
        (create_dlq = true →
          ∃ d, q.dead_letter_queue = some d ∧
            d.queueName
              = (if is_fifo then name ++ "-dlq.fifo" else name ++ "-dlq") ∧
            q.queue.deadLetter = some (mrc, d.queueName) ∧
            d.visibilityTimeoutSeconds = vt ∧
            q.queue.visibilityTimeoutSeconds = vt ∧
            d.retentionPeriodDays = 14 ∧
            q.queue.retentionPeriodDays = 14) ∧
        (create_dlq = false →
          q.dead_letter_queue = none ∧ q.queue.deadLetter = none)) := by
  constructor
  · intro h
    simp [mkQueueWithDLQ, h]
  · intro h
    unfold mkQueueWithDLQ
    rw [if_neg (by simp [h])]
    cases create_dlq with
    | true =>
        refine ⟨_, rfl, rfl, fun _ => ⟨_, rfl, rfl, rfl, rfl, rfl, rfl, rfl⟩,
          fun hc => Bool.noConfusion hc⟩
    | false =>
        refine ⟨_, rfl, rfl, fun hc => Bool.noConfusion hc,
          fun _ => ⟨rfl, rfl⟩⟩

/-- Witness for C5 at concrete inputs: a FIFO-suffixed name is rejected, and
a plain name with and without a DLQ. -/
theorem c5_queue_with_dlq_witness :
    mkQueueWithDLQ "salesforce-integration-production-messages.fifo"
        true 3 false false 900 = none ∧
    (∃ q, mkQueueWithDLQ "salesforce-integration-production-messages"
        true 5 false false 300 = some q ∧
      q.queue.queueName
        = (if false then "salesforce-integration-production-messages" ++ ".fifo"
           else "salesforce-integration-production-messages") ∧
      (true = true →
        ∃ d, q.dead_letter_queue = some d ∧
          d.queueName
            = (if false
               then "salesforce-integration-production-messages" ++ "-dlq.fifo"
               else "salesforce-integration-production-messages" ++ "-dlq") ∧
          q.queue.deadLetter = some (5, d.queueName) ∧
          d.visibilityTimeoutSeconds = 300 ∧
          q.queue.visibilityTimeoutSeconds = 300 ∧
          d.retentionPeriodDays = 14 ∧
          q.queue.retentionPeriodDays = 14) ∧
      (true = false →
        q.dead_letter_queue = none ∧ q.queue.deadLetter = none)) :=
  ⟨(c5_queue_with_dlq "salesforce-integration-production-messages.fifo"
      true 3 false false 900).1 (by decide),
   (c5_queue_with_dlq "salesforce-integration-production-messages"
      true 5 false false 300).2 (by decide)⟩

end SqsThms

namespace OidcScriptThms

open OidcScript

/-- A decisive attempt found from start index `i` lies at or after `i`. -/
theorem firstDecisiveFrom_le (get : Nat → PolicyAttempt) :
    ∀ n i j o, firstDecisiveFrom get i n = some (j, o) → i ≤ j := by
  intro n
  induction n with
  | zero =>
      intro i j o h
      simp [firstDecisiveFrom] at h
  | succ n ih =>
      intro i j o h
      rw [firstDecisiveFrom] at h
      cases hg : get i with
      | success =>
          rw [hg] at h
          simp only [Option.some.injEq, Prod.mk.injEq] at h
          omega
      | noSuchEntity =>
          rw [hg] at h
          exact Nat.le_of_succ_le (ih (i + 1) j o h)
      | otherError c =>
          rw [hg] at h
          simp only [Option.some.injEq, Prod.mk.injEq] at h
          omega

/-- Closed form of the polling loop started at index `i`. -/
theorem waitFrom_eq (get : Nat → PolicyAttempt) (delay : Nat) :
    ∀ n i, waitFrom get delay i n =
      match firstDecisiveFrom get i n with
      | none => (WaitResult.returnsFalse, List.replicate n delay)
      | some (j, none) => (WaitResult.returnsTrue, List.replicate (j - i) delay)
      | some (j, some c) => (WaitResult.raises c, List.replicate (j - i) delay) := by
  intro n
  induction n with
  | zero =>
      intro i
      simp [waitFrom, firstDecisiveFrom]
  | succ n ih =>
      intro i
      rw [waitFrom, firstDecisiveFrom]
      cases hg : get i with
      | success => simp
      | otherError c => simp
      | noSuchEntity =>
          rw [ih (i + 1)]
          cases hf : firstDecisiveFrom get (i + 1) n with
          | none => simp [List.replicate_succ]
          | some p =>
              obtain ⟨j, o⟩ := p
              have hij : i + 1 ≤ j := firstDecisiveFrom_le get n (i + 1) j o hf
              have hsub : j - i = (j - (i + 1)) + 1 := by omega
              cases o with
              | none => simp [hsub, List.replicate_succ]
              | some c => simp [hsub, List.replicate_succ]

/-- C6: `wait_for_policy` polls `get_policy` at most `max_attempts` times
with a fixed `delay` between attempts (every sleep is exactly `delay`, no
backoff): it returns `True` at the first successful call, sleeping once for
each prior `NoSuchEntity` failure; it returns `False` when all
`max_attempts` attempts fail with `NoSuchEntity`; and a client error with
any other code is re-raised immediately. -/
theorem c6_wait_for_policy_polling (get : Nat → PolicyAttempt)
    (max_attempts delay : Nat) :
    wait_for_policy get max_attempts delay =
      match firstDecisiveFrom get 0 max_attempts with
      | none => (WaitResult.returnsFalse, List.replicate max_attempts delay)
      | some (i, none) => (WaitResult.returnsTrue, List.replicate i delay)
      | some (i, some c) => (WaitResult.raises c, List.replicate i delay) := by
  have h := waitFrom_eq get delay max_attempts 0
  simpa using h

/-- C7: in `main`, an `EntityAlreadyExists` failure of `create_role` or
`create_policy` is treated as success — for the policy, by fetching the
existing policy's ARN at
`arn:aws:iam::{account_id}:policy/{POLICY_NAME}` and proceeding to the
attachment step with it — while a creation failure with any other error code
aborts the script before the attachment step. -/
theorem c7_entity_already_exists_continues (b : OidcEnv) (account_id : String)
    (hacct : b.getAccountId = ApiResult.ok account_id) :
    (b.createRole = ApiResult.clientError "EntityAlreadyExists" →
      mainFlow b = policyStep b account_id) ∧
    (∀ c, b.createRole = ApiResult.clientError c →
      c ≠ "EntityAlreadyExists" →
      mainFlow b = MainStage.abortedRoleCreate ∧
      ∀ arn, mainFlow b ≠ MainStage.reachedAttach arn) ∧
    (∀ arn, b.createPolicy = ApiResult.clientError "EntityAlreadyExists" →
      b.getPolicyArn
          ("arn:aws:iam::" ++ account_id ++ ":policy/" ++ POLICY_NAME)
        = ApiResult.ok arn →
      policyStep b account_id = MainStage.reachedAttach arn) ∧
    (∀ c, b.createPolicy = ApiResult.clientError c →
      c ≠ "EntityAlreadyExists" →
      policyStep b account_id = MainStage.abortedPolicyCreate ∧
      ∀ arn, policyStep b account_id ≠ MainStage.reachedAttach arn) := by
  refine ⟨?_, ?_, ?_, ?_⟩
  · intro h
    simp [mainFlow, hacct, roleStep, h]
  · intro c h hne
    refine ⟨?_, ?_⟩
    · simp [mainFlow, hacct, roleStep, h, hne]
    · intro arn
      simp [mainFlow, hacct, roleStep, h, hne]
  · intro arn h1 h2
    simp [policyStep, h1, h2]
  · intro c h hne
    refine ⟨?_, ?_⟩
    · simp [policyStep, h, hne]
    · intro arn
      simp [policyStep, h, hne]

/-- Witness for C7: one run where both creations hit `EntityAlreadyExists`
and the script reaches the attachment step with the existing policy's ARN,
and one run where the creations fail with other codes and the script aborts
before attachment. -/
theorem c7_entity_already_exists_continues_witness :
    mainFlow
        { getAccountId := ApiResult.ok "123456789012",
          createRole := ApiResult.clientError "EntityAlreadyExists",
          waitRoleOk := true,
          createPolicy := ApiResult.clientError "EntityAlreadyExists",
          waitPolicyOk := true,
          getPolicyArn := fun arn => ApiResult.ok arn }
      = MainStage.reachedAttach
          "arn:aws:iam::123456789012:policy/salesforce-integration-cdk-deployment-policy" ∧
    mainFlow
        { getAccountId := ApiResult.ok "123456789012",
          createRole := ApiResult.clientError "MalformedPolicyDocument",
          waitRoleOk := true,
          createPolicy := ApiResult.clientError "AccessDenied",
          waitPolicyOk := true,
          getPolicyArn := fun arn => ApiResult.ok arn }
      = MainStage.abortedRoleCreate ∧
    policyStep
        { getAccountId := ApiResult.ok "123456789012",
          createRole := ApiResult.clientError "MalformedPolicyDocument",
          waitRoleOk := true,
          createPolicy := ApiResult.clientError "AccessDenied",
          waitPolicyOk := true,
          getPolicyArn := fun arn => ApiResult.ok arn } "123456789012"
      = MainStage.abortedPolicyCreate := by
  have t := c7_entity_already_exists_continues
    { getAccountId := ApiResult.ok "123456789012",
      createRole := ApiResult.clientError "EntityAlreadyExists",
      waitRoleOk := true,
      createPolicy := ApiResult.clientError "EntityAlreadyExists",
      waitPolicyOk := true,
      getPolicyArn := fun arn => ApiResult.ok arn } "123456789012" rfl
  have u := c7_entity_already_exists_continues
    { getAccountId := ApiResult.ok "123456789012",
      createRole := ApiResult.clientError "MalformedPolicyDocument",
      waitRoleOk := true,
      createPolicy := ApiResult.clientError "AccessDenied",
      waitPolicyOk := true,
      getPolicyArn := fun arn => ApiResult.ok arn } "123456789012" rfl
  refine ⟨?_, ?_, ?_⟩
  · exact ((t.1 rfl).trans (t.2.2.1 _ rfl rfl)).trans (by decide)
  · exact (u.2.1 "MalformedPolicyDocument" rfl (by decide)).1
  · exact (u.2.2.2 "AccessDenied" rfl (by decide)).1

end OidcScriptThms

namespace GithubBranchesThms

open GithubBranches

/-- Lookup distributes over list append. -/
theorem lookup_append (l₁ l₂ : List (String × String)) (k : String) :
    (l₁ ++ l₂).lookup k = ((l₁.lookup k).or (l₂.lookup k)) := by
  induction l₁ with
  | nil => simp
  | cons p rest ih =>
      cases p
      simp [List.lookup]
      split <;> simp [ih]

/-- Partial and full ref names agree: `"refs/" + ("heads/" + b)` is
`"refs/heads/" + b`. -/
theorem refs_heads_key (b : String) :
    "refs/" ++ ("heads/" ++ b) = "refs/heads/" ++ b := by
  rw [← String.append_assoc]
  rfl

/-- Creating a ref preserves every existing ref binding. -/
theorem get_git_ref_create_of_some (st : RepoState) (ref sha r v : String)
    (h : get_git_ref st r = some v) :
    get_git_ref (create_git_ref st ref sha) r = some v := by
  unfold get_git_ref create_git_ref at *
  rw [lookup_append, h]
  rfl

/-- One loop iteration preserves every existing ref binding. -/
theorem processBranch_preserve (st : RepoState) (s b r v : String)
    (h : get_git_ref st r = some v) :
    get_git_ref (processBranch st s b).1 r = some v := by
  unfold processBranch
  cases hg : get_git_ref st ("heads/" ++ b) with
  | some w => simpa [hg]
  | none =>
      simp only [hg]
      exact get_git_ref_create_of_some st _ s r v h

/-- The whole loop preserves every existing ref binding. -/
theorem create_branches_preserve (s r v : String) :
    ∀ (bs : List String) (st : RepoState), get_git_ref st r = some v →
      get_git_ref (create_branches st s bs).1 r = some v := by
  intro bs
  induction bs with
  | nil =>
      intro st h
      simpa [create_branches]
  | cons hd tl ih =>
      intro st h
      simp only [create_branches]
      exact ih (processBranch st s hd).1 (processBranch_preserve st s hd r v h)

/-- After one loop iteration for `b`, the ref `heads/b` exists. -/
theorem processBranch_self (st : RepoState) (s b : String) :
    (get_git_ref (processBranch st s b).1 ("heads/" ++ b)).isSome := by
  unfold processBranch
  cases hg : get_git_ref st ("heads/" ++ b) with
  | some w => simp [hg]
  | none =>
      simp only [hg]
      unfold get_git_ref create_git_ref at *
      rw [lookup_append, hg, refs_heads_key]
      simp [List.lookup]

/-- After the loop, every branch in the list exists. -/
theorem create_branches_all_exist (s : String) :
    ∀ (bs : List String) (st : RepoState), ∀ b ∈ bs,
      (get_git_ref (create_branches st s bs).1 ("heads/" ++ b)).isSome := by
  intro bs
  induction bs with
  | nil => simp
  | cons hd tl ih =>
      intro st b hb
      simp only [create_branches]
      rcases List.mem_cons.mp hb with h | h
      · subst h
        obtain ⟨v, hv⟩ := Option.isSome_iff_exists.mp (processBranch_self st s b)
        rw [create_branches_preserve s ("heads/" ++ b) v tl
          (processBranch st s b).1 hv]
        rfl
      · exact ih (processBranch st s hd).1 b h

/-- If every branch in the list already exists, the loop only reads: no
`create_git_ref` call is made and the repository state is unchanged. -/
theorem create_branches_skip (s : String) :
    ∀ (bs : List String) (st : RepoState),
      (∀ b ∈ bs, (get_git_ref st ("heads/" ++ b)).isSome) →
      create_branches st s bs
        = (st, bs.map fun b => ApiCall.getRef ("heads/" ++ b)) := by
  intro bs
  induction bs with
  | nil =>
      intro st _
      simp [create_branches]
  | cons hd tl ih =>
      intro st h
      obtain ⟨v, hv⟩ := Option.isSome_iff_exists.mp (h hd (by simp))
      simp only [create_branches, processBranch, hv]
      rw [ih st fun b hb => h b (List.mem_cons_of_mem _ hb)]
      simp

/-- C8: the `create-branches` subcommand is idempotent with respect to
branch creation: every branch whose ref `heads/<branch>` already exists is
skipped without a `create_git_ref` call, so when every requested branch
already exists the run performs only `get_git_ref` reads and changes
nothing; in particular a second run with the same arguments creates no new
refs and changes no existing ref. -/
theorem c8_create_branches_idempotent (st : RepoState) (sourceSha : String)
    (branches : List String) :
    ((∀ b ∈ branches, (get_git_ref st ("heads/" ++ b)).isSome) →
      create_branches st sourceSha branches
        = (st, branches.map fun b => ApiCall.getRef ("heads/" ++ b))) ∧
    create_branches (create_branches st sourceSha branches).1 sourceSha branches
      = ((create_branches st sourceSha branches).1,
         branches.map fun b => ApiCall.getRef ("heads/" ++ b)) := by
  constructor
  · exact create_branches_skip sourceSha branches st
  · exact create_branches_skip sourceSha branches _
      (create_branches_all_exist sourceSha branches st)

/-- Witness for C8: a repository that already has `refs/heads/main` and a
run requesting `main` only reads and changes nothing. -/
theorem c8_create_branches_idempotent_witness :
    create_branches { refs := [("refs/heads/main", "abc123")] } "abc123" ["main"]
      = ({ refs := [("refs/heads/main", "abc123")] },
         [ApiCall.getRef "heads/main"]) :=
  (c8_create_branches_idempotent { refs := [("refs/heads/main", "abc123")] }
      "abc123" ["main"]).1 (by decide)

end GithubBranchesThms

namespace TimeRangeModelThms

open TimeRangeModel

/-- C9: every successfully constructed `TimeRange` satisfies
`start ≤ end`: the model validator raises `ValueError` exactly when
`start > end`, so `start = end` is accepted, and because
`validate_assignment` is enabled the invariant is preserved under later
field assignment. -/
theorem c9_time_range_invariant (s e v : Int) (t t' : TimeRange) :
    (mkTimeRange s e = Except.ok t → t.start ≤ t.end_) ∧
    (s > e → mkTimeRange s e = Except.error "End must be after start") ∧
    (s ≤ e → mkTimeRange s e = Except.ok { start := s, end_ := e }) ∧
    mkTimeRange s s = Except.ok { start := s, end_ := s } ∧
    (setStart t v = Except.ok t' → t'.start ≤ t'.end_) ∧
    (setEnd t v = Except.ok t' → t'.start ≤ t'.end_) := by
  refine ⟨?_, ?_, ?_, ?_, ?_, ?_⟩
  · intro h
    by_cases hc : s > e
    · simp [mkTimeRange, end_after_start, hc] at h
    · simp [mkTimeRange, end_after_start, hc] at h
      subst h
      show s ≤ e
      omega
  · intro h
    simp [mkTimeRange, end_after_start, h]
  · intro h
    simp only [mkTimeRange, end_after_start]
    rw [if_neg (by simp; omega)]
  · simp only [mkTimeRange, end_after_start]
    rw [if_neg (by simp)]
  · intro h
    by_cases hc : v > t.end_
    · simp [setStart, end_after_start, hc] at h
    · simp [setStart, end_after_start, hc] at h
      subst h
      show v ≤ t.end_
      omega
  · intro h
    by_cases hc : t.start > v
    · simp [setEnd, end_after_start, hc] at h
    · simp [setEnd, end_after_start, hc] at h
      subst h
      show t.start ≤ v
      omega

/-- Witness for C9 at concrete instants. -/
theorem c9_time_range_invariant_witness :
    (TimeRange.mk 0 1).start ≤ (TimeRange.mk 0 1).end_ ∧
    mkTimeRange 2 1 = Except.error "End must be after start" ∧
    mkTimeRange 0 1 = Except.ok { start := 0, end_ := 1 } ∧
    mkTimeRange 3 3 = Except.ok { start := 3, end_ := 3 } ∧
    (TimeRange.mk (-5) 1).start ≤ (TimeRange.mk (-5) 1).end_ ∧
    (TimeRange.mk 0 7).start ≤ (TimeRange.mk 0 7).end_ := by
  refine ⟨?_, ?_, ?_, ?_, ?_, ?_⟩
  · exact (c9_time_range_invariant 0 1 0 ⟨0, 1⟩ ⟨0, 1⟩).1 rfl
  · exact (c9_time_range_invariant 2 1 0 ⟨0, 0⟩ ⟨0, 0⟩).2.1 (by decide)
  · exact (c9_time_range_invariant 0 1 0 ⟨0, 0⟩ ⟨0, 0⟩).2.2.1 (by decide)
  · exact (c9_time_range_invariant 3 0 0 ⟨0, 0⟩ ⟨0, 0⟩).2.2.2.1
  · exact (c9_time_range_invariant 0 1 (-5) ⟨0, 1⟩ ⟨-5, 1⟩).2.2.2.2.1 rfl
  · exact (c9_time_range_invariant 0 1 7 ⟨0, 1⟩ ⟨0, 7⟩).2.2.2.2.2 rfl

end TimeRangeModelThms
